import Mathlib

/-!
Shallow embedding of the confy server session/tunnel manager
(src/server/routers/ws.py and src/server/main.py) together with theorems
settling the specification claims about connect-time validation, the
waiting list and the disconnect cascade.

Conventions of the embedding:

* Participant IDs are the already-hashed identifiers: websocket_endpoint
  applies hash_id (a deterministic SHA-256 digest) to both path parameters
  before anything else, and every piece of shared state is keyed by those
  hashes, so the model works directly on hashed IDs as opaque strings.
* Python dicts become association lists with unique keys, Python sets become
  duplicate-free lists (list order fixes the unspecified iteration order of
  a set), and frozenset({a, b}) becomes the sorted pair fkey a b, which has
  the same order-independent equality.
* WebSocket sends/closes and Redis calls are recorded as events.  Fallible
  calls consult an Oracle that says which call raises.  A raised exception
  that nothing catches makes the modelled operation return ok = false with
  the mutations performed so far kept, matching module-level Python state
  surviving a propagated exception.  Sends and closes on the connecting
  session's own channel are modelled as infallible; the claims only
  exercise failures of peer notifications and Redis calls.
* The message constants imported from the external confy_addons package are
  opaque tokens here; only their identity matters.
-/

/-- A channel on which the server sends: the current session's own websocket
(`websocket.send_text`) or the registered websocket of a given user
(`active_connections[u].send_text`). -/
inductive Chan where
  | self : Chan
  | user (id : String) : Chan
deriving DecidableEq, Repr

/-- Observable side effects of the endpoint: delivered text frames, channel
closes, and Redis set operations (srem/sadd record the attempt, delKey is a
whole-key DEL). -/
inductive Event where
  | sent (chan : Chan) (msg : String) : Event
  | closed (chan : Chan) : Event
  | srem (id : String) : Event
  | sadd (id : String) : Event
  | delKey (key : String) : Event
deriving DecidableEq, Repr

/-- How a connect attempt ends: one of the three rejection paths, acceptance
into the relay loop, or an uncaught exception escaping the endpoint. -/
inductive ConnectResult where
  | rejectedSelf : ConnectResult
  | rejectedDuplicate : ConnectResult
  | rejectedBusy : ConnectResult
  | accepted : ConnectResult
  | errored : ConnectResult
deriving DecidableEq, Repr

/-- Which fallible external calls raise: send_text/close on a user's
registered channel, and Redis srem/sadd for a given ID. -/
structure Oracle where
  sendFails : String → Bool
  closeFails : String → Bool
  sremFails : String → Bool
  saddFails : String → Bool

/-- Canonical tunnel key: a pair of hashed IDs. -/
abbrev Key := String × String

/-- The module-level shared state of src/server/routers/ws.py plus the
external Redis online_users set. -/
structure ServerState where
  active_connections : List String
  active_tunnels : List Key
  waiting_for : List (String × List String)
  tunnel_users : List (Key × List String)
  online_users : List String
deriving DecidableEq, Repr

/-- Python set.add / dict-key insertion: append if absent. -/
def insertNew {α : Type} [DecidableEq α] (l : List α) (x : α) : List α :=
  if x ∈ l then l else l ++ [x]

/-- Python set.discard / del dict[k]: drop every occurrence (sets and dict
keys hold no duplicates, so this is exact on well-formed states and total
on all states). -/
def removeAll {α : Type} [DecidableEq α] (l : List α) (x : α) : List α :=
  l.filter (fun y => y ≠ x)

/-- Association-list lookup with propositional key equality. -/
def alookup {α β : Type} [DecidableEq α] : List (α × β) → α → Option β
  | [], _ => none
  | p :: rest, k => if p.1 = k then some p.2 else alookup rest k

/-- Drop the entry of a key from an association list. -/
def eraseKey {α β : Type} [DecidableEq α] (m : List (α × β)) (k : α) : List (α × β) :=
  m.filter (fun p => p.1 ≠ k)

/-- Update the value stored under a key in place. -/
def updateVal {α β : Type} [DecidableEq α] (m : List (α × β)) (k : α) (f : β → β) :
    List (α × β) :=
  m.map (fun p => if p.1 = k then (p.1, f p.2) else p)

/-- Lexicographic order on the character lists of two strings, written out
so that the kernel can evaluate it on literals (String.lt goes through
byte-level iterators that do not reduce definitionally). -/
def charListLt : List Char → List Char → Bool
  | [], [] => false
  | [], _ :: _ => true
  | _ :: _, [] => false
  | c :: cs, d :: ds =>
    if c.toNat < d.toNat then true
    else if d.toNat < c.toNat then false
    else charListLt cs ds

def strLt (a b : String) : Bool := charListLt a.data b.data

/-- frozenset({a, b}) as an order-independent key: the pair sorted by a
fixed total order on strings (which order is irrelevant — keys are only
compared for equality). -/
def fkey (a b : String) : Key :=
  if strLt a b then (a, b) else (b, a)

/-- Opaque stand-ins for the confy_addons message constants and the two
message prefixes. -/
def SYS_TAG : String := "system-message:"

def SYS_ERR_TAG : String := "system-error-message:"

def NOT_CONNECT_YOURSELF : String := "not-connect-yourself"

def THIS_ID_ALREADY_IN_USE : String := "id-already-in-use"

def RECIPIENT_BUSY_TEXT : String := "recipient-already-in-active-conversation."

def RECIPIENT_NOT_CONNECTED : String := "recipient-not-connected"

def RECIPIENT_CONNECTED : String := "recipient-connected"

def THE_OTHER_USER_LOGGED_OUT : String := "the-other-user-logged-out"

def MSG_SELF : String := SYS_ERR_TAG ++ " " ++ NOT_CONNECT_YOURSELF ++ "."

def MSG_DUP : String := SYS_ERR_TAG ++ " " ++ THIS_ID_ALREADY_IN_USE ++ "."

def MSG_BUSY : String := SYS_ERR_TAG ++ " " ++ RECIPIENT_BUSY_TEXT

def MSG_OFFLINE : String := SYS_TAG ++ " " ++ RECIPIENT_NOT_CONNECTED

def MSG_RECIPIENT_CONNECTED : String := SYS_TAG ++ " " ++ RECIPIENT_CONNECTED

def MSG_PEER_GONE : String := SYS_TAG ++ " " ++ THE_OTHER_USER_LOGGED_OUT ++ "."

/-- The member set of the tunnel keyed k (empty when the key is absent). -/
def membersOf (s : ServerState) (k : Key) : List String :=
  (alookup s.tunnel_users k).getD []

/-- `if tunnel_id not in tunnel_users: tunnel_users[tunnel_id] = set()`. -/
def ensureTunnel (s : ServerState) (tid : Key) : ServerState :=
  if (alookup s.tunnel_users tid).isSome then s
  else { s with tunnel_users := s.tunnel_users ++ [(tid, [])] }

/-- `tunnel_users[tid].add(x)`. -/
def addMember (s : ServerState) (tid : Key) (x : String) : ServerState :=
  { s with tunnel_users := updateVal s.tunnel_users tid (fun ms => insertNew ms x) }

/-- Overwrite the member set stored under tid (used for the discard step). -/
def setMembers (s : ServerState) (tid : Key) (ms : List String) : ServerState :=
  { s with tunnel_users := updateVal s.tunnel_users tid (fun _ => ms) }

/-- `waiting_for.setdefault(r, []).append(x)`. -/
def appendWaiting (w : List (String × List String)) (r x : String) :
    List (String × List String) :=
  if (alookup w r).isSome then updateVal w r (fun q => q ++ [x])
  else w ++ [(r, [x])]

/-- Lines 112-119 of ws.py: delete the queue keyed by the disconnected user,
then remove its first occurrence (list.remove) from every remaining queue. -/
def purgeWaiting (s : ServerState) (du : String) : ServerState :=
  { s with waiting_for := (eraseKey s.waiting_for du).map (fun p => (p.1, p.2.erase du)) }

/-- ws.py::cleanup_user_from_redis — a single srem on the online_users set.
The call is not guarded; a Redis failure raises out of the caller.  At its
two call sites below the effect is inlined, branching directly on the
oracle flag (the returned Bool equals `!fo.sremFails u`). -/
def cleanup_user_from_redis (fo : Oracle) (s : ServerState) (u : String) :
    ServerState × List Event × Bool :=
  if fo.sremFails u then (s, [Event.srem u], false)
  else ({ s with online_users := removeAll s.online_users u }, [Event.srem u], true)

/-- The frames delivered to a remaining tunnel member during the cascade's
try block: none when send_text raises, the notice without a close
acknowledgement when close raises, otherwise the notice followed by the
close. -/
def peerNotifyEvents (fo : Oracle) (u : String) : List Event :=
  if fo.sendFails u then []
  else if fo.closeFails u then [Event.sent (Chan.user u) MSG_PEER_GONE]
  else [Event.sent (Chan.user u) MSG_PEER_GONE, Event.closed (Chan.user u)]

/-- The srem attempts made for a member whose srem fails: once when the
except branch (entered from a send/close failure) runs it, twice when the
try block's own srem raised and the except branch retried it. -/
def sremAttempts (fo : Oracle) (u : String) : List Event :=
  if fo.sendFails u || fo.closeFails u then [Event.srem u]
  else [Event.srem u, Event.srem u]

/-- The for-loop of handle_user_disconnect over the snapshot of remaining
tunnel members: try send_text / close / del / cleanup_user_from_redis; the
except branch logs, deletes the user if still registered and runs
cleanup_user_from_redis (again, in the try path), whose own failure
propagates out of the cascade.  Events record delivered frames only: a
failed send delivers nothing. -/
def notifyLoop (fo : Oracle) : List String → ServerState → List Event →
    ServerState × List Event × Bool
  | [], s, evs => (s, evs, true)
  | u :: rest, s, evs =>
    if u ∈ s.active_connections then
      let s1 := { s with active_connections := removeAll s.active_connections u }
      if fo.sremFails u then
        (s1, evs ++ peerNotifyEvents fo u ++ sremAttempts fo u, false)
      else
        notifyLoop fo rest { s1 with online_users := removeAll s1.online_users u }
          (evs ++ peerNotifyEvents fo u ++ [Event.srem u])
    else notifyLoop fo rest s evs

/-- ws.py::handle_user_disconnect — the disconnect cascade.  The final Bool
is false when an uncaught Redis failure escaped the function; mutations made
before the raise are kept (module state survives a propagated exception).
The first cleanup_user_from_redis call is unguarded, so its failure aborts
everything after it. -/
def handle_user_disconnect (fo : Oracle) (s : ServerState) (du : String) (tid : Key) :
    ServerState × List Event × Bool :=
  let s1 := { s with active_connections := removeAll s.active_connections du }
  if fo.sremFails du then (s1, [Event.srem du], false)
  else
    let s2 := { s1 with online_users := removeAll s1.online_users du }
    if (alookup s2.tunnel_users tid).isSome then
      let members := (alookup s2.tunnel_users tid).getD []
      let s3 := setMembers s2 tid (removeAll members du)
      let rl := notifyLoop fo (removeAll members du) s3 [Event.srem du]
      if rl.2.2 then
        let s5 := { rl.1 with tunnel_users := eraseKey rl.1.tunnel_users tid,
                              active_tunnels := removeAll rl.1.active_tunnels tid }
        (purgeWaiting s5 du, rl.2.1, true)
      else (rl.1, rl.2.1, false)
    else (purgeWaiting s2 du, [Event.srem du], true)

/-- The for-loop over waiting_for[sender_id] in websocket_endpoint: notify
each still-connected waiting sender and add it to the current tunnel.  A
send failure is uncaught and aborts the endpoint before the queue is
deleted. -/
def drainLoop (fo : Oracle) (tid : Key) : List String → ServerState → List Event →
    ServerState × List Event × Bool
  | [], s, evs => (s, evs, true)
  | w :: rest, s, evs =>
    if w ∈ s.active_connections then
      if fo.sendFails w then (s, evs, false)
      else drainLoop fo tid rest (addMember s tid w)
        (evs ++ [Event.sent (Chan.user w) MSG_RECIPIENT_CONNECTED])
    else drainLoop fo tid rest s evs

/-- ws.py lines 213-225: compute the tunnel key, mark the tunnel active,
ensure its entry exists, add the sender as a member, and add the recipient
as a member too when it is locally connected. -/
def joinTunnel (s : ServerState) (sender_id recipient_id : String) : ServerState :=
  let tid := fkey sender_id recipient_id
  let s3 := { s with active_tunnels := insertNew s.active_tunnels tid }
  let s4 := addMember (ensureTunnel s3 tid) tid sender_id
  if recipient_id ∈ s4.active_connections then addMember s4 tid recipient_id else s4

/-- ws.py lines 229-234: when the recipient is not locally connected,
append the sender to the recipient's waiting queue and deliver the one-time
offline notice on the sender's own channel. -/
def enqueueIfOffline (s : ServerState) (sender_id recipient_id : String) :
    ServerState × List Event :=
  if recipient_id ∈ s.active_connections then (s, [])
  else ({ s with waiting_for := appendWaiting s.waiting_for recipient_id sender_id },
        [Event.sent Chan.self MSG_OFFLINE])

/-- The accepted path of websocket_endpoint (ws.py lines 207-245): register
the sender, mark it present in Redis, create/join the tunnel, enqueue on the
recipient's waiting list or drain the sender's own list.  The model stops at
the point where the relay loop would be entered. -/
def connectAccepted (fo : Oracle) (s : ServerState) (sender_id recipient_id : String) :
    ServerState × List Event × ConnectResult :=
  let s1 := { s with active_connections := insertNew s.active_connections sender_id }
  if fo.saddFails sender_id then (s1, [Event.sadd sender_id], ConnectResult.errored)
  else
    let s2 := { s1 with online_users := insertNew s1.online_users sender_id }
    let step6 := enqueueIfOffline (joinTunnel s2 sender_id recipient_id) sender_id recipient_id
    if (alookup step6.1.waiting_for sender_id).isSome then
      let q := (alookup step6.1.waiting_for sender_id).getD []
      let rd := drainLoop fo (fkey sender_id recipient_id) q step6.1 []
      if rd.2.2 then
        ({ rd.1 with waiting_for := eraseKey rd.1.waiting_for sender_id },
         Event.sadd sender_id :: (step6.2 ++ rd.2.1), ConnectResult.accepted)
      else (rd.1, Event.sadd sender_id :: (step6.2 ++ rd.2.1), ConnectResult.errored)
    else (step6.1, Event.sadd sender_id :: step6.2, ConnectResult.accepted)

/-- ws.py::websocket_endpoint up to entering the relay loop.  Both IDs
arrive already hashed. -/
def websocket_endpoint (fo : Oracle) (s : ServerState) (sender_id recipient_id : String) :
    ServerState × List Event × ConnectResult :=
  if sender_id = recipient_id then
    (s, [Event.sent Chan.self MSG_SELF, Event.closed Chan.self], ConnectResult.rejectedSelf)
  else if sender_id ∈ s.online_users then
    (s, [Event.sent Chan.self MSG_DUP, Event.closed Chan.self], ConnectResult.rejectedDuplicate)
  else if recipient_id ∈ s.active_connections ∧
      ∃ p ∈ s.tunnel_users, recipient_id ∈ p.2 ∧ 1 < p.2.length then
    (s, [Event.sent Chan.self MSG_BUSY, Event.closed Chan.self], ConnectResult.rejectedBusy)
  else connectAccepted fo s sender_id recipient_id

/-- Embedded from src/server/main.py: the FastAPI app there is constructed
with metadata only — the module registers no lifespan context manager and no
shutdown hook, so the list of external-store actions it performs at process
shutdown is empty. -/
def main_shutdown_events : List Event := []

/-- Modelled from the spec: the shutdown reconciliation the Presence Store
contract requires — a one-shot clear-all deleting the whole online_users
set at process shutdown. -/
def spec_shutdown_clear : List Event := [Event.delKey "online_users"]

/-- The empty module-level state at import time. -/
def initialState : ServerState := ⟨[], [], [], [], []⟩

/-- States reachable from the initial module state by connect attempts and
disconnect cascades (a cascade always fires with the session's own tunnel
key, built from its two hashed IDs). -/
inductive Reachable : ServerState → Prop where
  | init : Reachable initialState
  | stepConnect (fo : Oracle) (a b : String) {s : ServerState} :
      Reachable s → Reachable (websocket_endpoint fo s a b).1
  | stepDisconnect (fo : Oracle) (a b : String) {s : ServerState} :
      Reachable s → Reachable (handle_user_disconnect fo s a (fkey a b)).1

/-- The recipients of "recipient connected" notices, in delivery order. -/
def connNotices (evs : List Event) : List String :=
  evs.filterMap (fun e =>
    match e with
    | Event.sent (Chan.user u) m => if m = MSG_RECIPIENT_CONNECTED then some u else none
    | _ => none)

/-- Spec invariant 3: each tunnel's member set is a subset of the two IDs
forming its key and of the currently registered connections. -/
def tunnelInvariant (s : ServerState) : Prop :=
  ∀ p ∈ s.tunnel_users, ∀ u ∈ p.2, (u = p.1.1 ∨ u = p.1.2) ∧ u ∈ s.active_connections

instance (s : ServerState) : Decidable (tunnelInvariant s) := by
  unfold tunnelInvariant
  infer_instance

/-- The all-successful oracle: no external call fails. -/
def fo0 : Oracle := ⟨fun _ => false, fun _ => false, fun _ => false, fun _ => false⟩

/-! ### Helper lemmas about the list primitives -/

theorem mem_removeAll {α : Type} [DecidableEq α] {l : List α} {x y : α} :
    y ∈ removeAll l x ↔ y ∈ l ∧ y ≠ x := by
  simp [removeAll]

theorem not_mem_removeAll {α : Type} [DecidableEq α] (l : List α) (x : α) :
    x ∉ removeAll l x := by
  simp [mem_removeAll]

theorem removeAll_eq_self {α : Type} [DecidableEq α] {l : List α} {x : α} (h : x ∉ l) :
    removeAll l x = l := by
  rw [removeAll, List.filter_eq_self]
  intro y hy
  simp only [ne_eq, decide_eq_true_eq]
  rintro rfl
  exact h hy

theorem nodup_removeAll {α : Type} [DecidableEq α] {l : List α} (h : l.Nodup) (x : α) :
    (removeAll l x).Nodup :=
  h.filter _

theorem mem_insertNew {α : Type} [DecidableEq α] {l : List α} {x y : α} :
    y ∈ insertNew l x ↔ y ∈ l ∨ y = x := by
  unfold insertNew
  split
  · next hx => simp only [iff_self_or]; rintro rfl; exact hx
  · simp

theorem nodup_insertNew {α : Type} [DecidableEq α] {l : List α} (h : l.Nodup) (x : α) :
    (insertNew l x).Nodup := by
  unfold insertNew
  split
  · exact h
  · next hx =>
    rw [List.nodup_append]
    refine ⟨h, List.nodup_singleton x, ?_⟩
    intro a ha hax
    rw [List.mem_singleton] at hax
    exact hx (hax ▸ ha)

theorem alookup_cons {α β : Type} [DecidableEq α] (p : α × β) (rest : List (α × β)) (k : α) :
    alookup (p :: rest) k = if p.1 = k then some p.2 else alookup rest k := rfl

theorem eraseKey_cons {α β : Type} [DecidableEq α] (p : α × β) (rest : List (α × β)) (k : α) :
    eraseKey (p :: rest) k = if p.1 = k then eraseKey rest k else p :: eraseKey rest k := by
  by_cases hp : p.1 = k <;> simp [eraseKey, List.filter_cons, hp]

theorem updateVal_cons {α β : Type} [DecidableEq α] (p : α × β) (rest : List (α × β))
    (k : α) (f : β → β) :
    updateVal (p :: rest) k f = (if p.1 = k then (p.1, f p.2) else p) :: updateVal rest k f :=
  rfl

theorem alookup_eraseKey_self {α β : Type} [DecidableEq α] (m : List (α × β)) (k : α) :
    alookup (eraseKey m k) k = none := by
  induction m with
  | nil => rfl
  | cons p rest ih =>
    rw [eraseKey_cons]
    by_cases hp : p.1 = k
    · rw [if_pos hp]; exact ih
    · rw [if_neg hp, alookup_cons, if_neg hp]; exact ih

theorem alookup_eraseKey_ne {α β : Type} [DecidableEq α] (m : List (α × β)) {k k' : α}
    (h : k' ≠ k) : alookup (eraseKey m k) k' = alookup m k' := by
  induction m with
  | nil => rfl
  | cons p rest ih =>
    rw [eraseKey_cons]
    by_cases hp : p.1 = k
    · have hpk' : ¬ p.1 = k' := by rw [hp]; exact fun e => h e.symm
      rw [if_pos hp, ih, alookup_cons, if_neg hpk']
    · rw [if_neg hp, alookup_cons, alookup_cons, ih]

theorem alookup_updateVal_ne {α β : Type} [DecidableEq α] (m : List (α × β)) (f : β → β)
    {k k' : α} (h : k' ≠ k) : alookup (updateVal m k f) k' = alookup m k' := by
  induction m with
  | nil => rfl
  | cons p rest ih =>
    rw [updateVal_cons]
    by_cases hp : p.1 = k
    · have hpk' : ¬ p.1 = k' := by rw [hp]; exact fun e => h e.symm
      rw [if_pos hp, alookup_cons, alookup_cons, if_neg hpk', ih]
      exact if_neg hpk' ▸ rfl
    · rw [if_neg hp, alookup_cons, alookup_cons, ih]

theorem alookup_updateVal_self {α β : Type} [DecidableEq α] (m : List (α × β)) (f : β → β)
    (k : α) : alookup (updateVal m k f) k = (alookup m k).map f := by
  induction m with
  | nil => rfl
  | cons p rest ih =>
    rw [updateVal_cons, alookup_cons, alookup_cons]
    by_cases hp : p.1 = k
    · rw [if_pos hp]
      have : ((p.1, f p.2) : α × β).1 = k := hp
      rw [if_pos this, if_pos hp]
      rfl
    · rw [if_neg hp, if_neg hp, if_neg hp, ih]

theorem alookup_append_none {α β : Type} [DecidableEq α] {m : List (α × β)}
    (m' : List (α × β)) {k : α} (h : alookup m k = none) :
    alookup (m ++ m') k = alookup m' k := by
  induction m with
  | nil => rfl
  | cons p rest ih =>
    rw [alookup_cons] at h
    rw [List.cons_append, alookup_cons]
    by_cases hp : p.1 = k
    · rw [if_pos hp] at h; exact absurd h (by simp)
    · rw [if_neg hp] at h
      rw [if_neg hp]
      exact ih h

theorem alookup_append_some {α β : Type} [DecidableEq α] {m : List (α × β)}
    (m' : List (α × β)) {k : α} {v : β} (h : alookup m k = some v) :
    alookup (m ++ m') k = some v := by
  induction m with
  | nil => exact absurd h (by simp [alookup])
  | cons p rest ih =>
    rw [alookup_cons] at h
    rw [List.cons_append, alookup_cons]
    by_cases hp : p.1 = k
    · rw [if_pos hp] at h; rw [if_pos hp]; exact h
    · rw [if_neg hp] at h; rw [if_neg hp]; exact ih h

theorem alookup_appendWaiting_ne (w : List (String × List String)) {r x : String} {k : String}
    (h : k ≠ r) : alookup (appendWaiting w r x) k = alookup w k := by
  unfold appendWaiting
  split
  · exact alookup_updateVal_ne w _ h
  · cases hw : alookup w k with
    | none =>
      rw [alookup_append_none _ hw, alookup_cons, if_neg (fun e : r = k => h e.symm)]
      rfl
    | some q => exact alookup_append_some _ hw

/-! ### Projection lemmas for the elementary state operations -/

@[simp]
theorem addMember_conns (s : ServerState) (tid : Key) (x : String) :
    (addMember s tid x).active_connections = s.active_connections := rfl

@[simp]
theorem addMember_waiting (s : ServerState) (tid : Key) (x : String) :
    (addMember s tid x).waiting_for = s.waiting_for := rfl

@[simp]
theorem addMember_online (s : ServerState) (tid : Key) (x : String) :
    (addMember s tid x).online_users = s.online_users := rfl

@[simp]
theorem setMembers_conns (s : ServerState) (tid : Key) (ms : List String) :
    (setMembers s tid ms).active_connections = s.active_connections := rfl

@[simp]
theorem ensureTunnel_conns (s : ServerState) (tid : Key) :
    (ensureTunnel s tid).active_connections = s.active_connections := by
  unfold ensureTunnel; split <;> rfl

@[simp]
theorem ensureTunnel_waiting (s : ServerState) (tid : Key) :
    (ensureTunnel s tid).waiting_for = s.waiting_for := by
  unfold ensureTunnel; split <;> rfl

@[simp]
theorem ensureTunnel_online (s : ServerState) (tid : Key) :
    (ensureTunnel s tid).online_users = s.online_users := by
  unfold ensureTunnel; split <;> rfl

@[simp]
theorem purgeWaiting_conns (s : ServerState) (du : String) :
    (purgeWaiting s du).active_connections = s.active_connections := rfl

@[simp]
theorem purgeWaiting_tunnels (s : ServerState) (du : String) :
    (purgeWaiting s du).tunnel_users = s.tunnel_users := rfl

@[simp]
theorem purgeWaiting_activeTunnels (s : ServerState) (du : String) :
    (purgeWaiting s du).active_tunnels = s.active_tunnels := rfl

@[simp]
theorem purgeWaiting_online (s : ServerState) (du : String) :
    (purgeWaiting s du).online_users = s.online_users := rfl

/-! ### Lemmas about the cascade's member loop -/

theorem notifyLoop_waiting (fo : Oracle) (l : List String) :
    ∀ (s : ServerState) (evs : List Event),
      (notifyLoop fo l s evs).1.waiting_for = s.waiting_for := by
  induction l with
  | nil => intro s evs; rfl
  | cons u rest ih =>
    intro s evs
    simp only [notifyLoop]
    split_ifs <;> first | rfl | exact ih _ _

theorem notifyLoop_tunnels (fo : Oracle) (l : List String) :
    ∀ (s : ServerState) (evs : List Event),
      (notifyLoop fo l s evs).1.tunnel_users = s.tunnel_users := by
  induction l with
  | nil => intro s evs; rfl
  | cons u rest ih =>
    intro s evs
    simp only [notifyLoop]
    split_ifs <;> first | rfl | exact ih _ _

theorem notifyLoop_activeTunnels (fo : Oracle) (l : List String) :
    ∀ (s : ServerState) (evs : List Event),
      (notifyLoop fo l s evs).1.active_tunnels = s.active_tunnels := by
  induction l with
  | nil => intro s evs; rfl
  | cons u rest ih =>
    intro s evs
    simp only [notifyLoop]
    split_ifs <;> first | rfl | exact ih _ _

theorem notifyLoop_ok (fo : Oracle) (hsrem : ∀ u, fo.sremFails u = false) (l : List String) :
    ∀ (s : ServerState) (evs : List Event), (notifyLoop fo l s evs).2.2 = true := by
  induction l with
  | nil => intro s evs; rfl
  | cons u rest ih =>
    intro s evs
    simp only [notifyLoop]
    split_ifs with hu hs
    · rw [hsrem u] at hs; exact absurd hs (by decide)
    · exact ih _ _
    · exact ih _ _

theorem notifyLoop_mem_conns (fo : Oracle) (hsrem : ∀ u, fo.sremFails u = false)
    (l : List String) :
    ∀ (s : ServerState) (evs : List Event) (x : String),
      (x ∈ (notifyLoop fo l s evs).1.active_connections ↔
        x ∈ s.active_connections ∧ x ∉ l) := by
  induction l with
  | nil => intro s evs x; simp [notifyLoop]
  | cons u rest ih =>
    intro s evs x
    simp only [notifyLoop]
    split_ifs with hu hs
    · rw [hsrem u] at hs; exact absurd hs (by decide)
    · rw [ih]
      show x ∈ removeAll s.active_connections u ∧ x ∉ rest ↔ _
      rw [mem_removeAll]
      constructor
      · rintro ⟨⟨hxc, hxu⟩, hxr⟩
        refine ⟨hxc, ?_⟩
        rw [List.mem_cons]
        rintro (rfl | hr)
        · exact hxu rfl
        · exact hxr hr
      · rintro ⟨hxc, hx⟩
        rw [List.mem_cons] at hx
        push_neg at hx
        exact ⟨⟨hxc, hx.1⟩, hx.2⟩
    · rw [ih]
      constructor
      · rintro ⟨hxc, hxr⟩
        refine ⟨hxc, ?_⟩
        rw [List.mem_cons]
        rintro (rfl | hr)
        · exact hu hxc
        · exact hxr hr
      · rintro ⟨hxc, hx⟩
        rw [List.mem_cons] at hx
        push_neg at hx
        exact ⟨hxc, hx.2⟩

theorem notifyLoop_conns_nodup (fo : Oracle) (l : List String) :
    ∀ (s : ServerState) (evs : List Event), s.active_connections.Nodup →
      (notifyLoop fo l s evs).1.active_connections.Nodup := by
  induction l with
  | nil => intro s evs h; exact h
  | cons u rest ih =>
    intro s evs h
    simp only [notifyLoop]
    split_ifs
    · exact nodup_removeAll h u
    · exact ih _ _ (nodup_removeAll h u)
    · exact ih _ _ h

/-! ### Lemmas about the waiting-list drain loop -/

theorem drainLoop_conns (fo : Oracle) (tid : Key) (q : List String) :
    ∀ (s : ServerState) (evs : List Event),
      (drainLoop fo tid q s evs).1.active_connections = s.active_connections := by
  induction q with
  | nil => intro s evs; rfl
  | cons w rest ih =>
    intro s evs
    simp only [drainLoop]
    split_ifs <;> first | rfl | exact ih _ _

theorem drainLoop_online (fo : Oracle) (tid : Key) (q : List String) :
    ∀ (s : ServerState) (evs : List Event),
      (drainLoop fo tid q s evs).1.online_users = s.online_users := by
  induction q with
  | nil => intro s evs; rfl
  | cons w rest ih =>
    intro s evs
    simp only [drainLoop]
    split_ifs <;> first | rfl | exact ih _ _

theorem drainLoop_waiting (fo : Oracle) (tid : Key) (q : List String) :
    ∀ (s : ServerState) (evs : List Event),
      (drainLoop fo tid q s evs).1.waiting_for = s.waiting_for := by
  induction q with
  | nil => intro s evs; rfl
  | cons w rest ih =>
    intro s evs
    simp only [drainLoop]
    split_ifs <;> first | rfl | exact ih _ _

theorem drainLoop_ok (fo : Oracle) (tid : Key) (q : List String) :
    ∀ (s : ServerState) (evs : List Event), (∀ u ∈ q, fo.sendFails u = false) →
      (drainLoop fo tid q s evs).2.2 = true := by
  induction q with
  | nil => intro s evs _; rfl
  | cons w rest ih =>
    intro s evs hq
    simp only [drainLoop]
    split_ifs with hw hsend
    · rw [hq w (List.mem_cons_self w rest)] at hsend; exact absurd hsend (by decide)
    · exact ih _ _ (fun u hu => hq u (List.mem_cons_of_mem w hu))
    · exact ih _ _ (fun u hu => hq u (List.mem_cons_of_mem w hu))

theorem drainLoop_events (fo : Oracle) (tid : Key) (q : List String) :
    ∀ (s : ServerState) (evs : List Event), (∀ u ∈ q, fo.sendFails u = false) →
      (drainLoop fo tid q s evs).2.1 =
        evs ++ (q.filter (fun u => decide (u ∈ s.active_connections))).map
          (fun u => Event.sent (Chan.user u) MSG_RECIPIENT_CONNECTED) := by
  induction q with
  | nil => intro s evs _; simp [drainLoop]
  | cons w rest ih =>
    intro s evs hq
    simp only [drainLoop]
    split_ifs with hw hsend
    · rw [hq w (List.mem_cons_self w rest)] at hsend; exact absurd hsend (by decide)
    · rw [ih _ _ (fun u hu => hq u (List.mem_cons_of_mem w hu)), addMember_conns]
      rw [List.filter_cons_of_pos (by simpa using hw)]
      simp [List.append_assoc]
    · rw [ih _ _ (fun u hu => hq u (List.mem_cons_of_mem w hu))]
      rw [List.filter_cons_of_neg (by simpa using hw)]

theorem drainLoop_members (fo : Oracle) (tid : Key) (q : List String) :
    ∀ (s : ServerState) (evs : List Event) (k : Key) (x : String),
      x ∈ membersOf (drainLoop fo tid q s evs).1 k →
        x ∈ membersOf s k ∨ x ∈ s.active_connections := by
  induction q with
  | nil => intro s evs k x h; exact Or.inl h
  | cons w rest ih =>
    intro s evs k x h
    rw [drainLoop] at h
    split_ifs at h with hw hsend
    · exact Or.inl h
    · rcases ih _ _ _ _ h with hm | hc
      · by_cases hk : k = tid
        · subst hk
          rw [membersOf, addMember] at hm
          simp only at hm
          rw [alookup_updateVal_self] at hm
          cases hl : alookup s.tunnel_users k with
          | none =>
            rw [hl] at hm
            have hnil : x ∈ ([] : List String) := hm
            exact absurd hnil (List.not_mem_nil x)
          | some ms =>
            rw [hl] at hm
            have hm' : x ∈ insertNew ms w := hm
            rw [mem_insertNew] at hm'
            rcases hm' with hm' | rfl
            · rw [membersOf, hl]; exact Or.inl hm'
            · exact Or.inr hw
        · rw [membersOf, addMember] at hm
          simp only at hm
          rw [alookup_updateVal_ne _ _ hk] at hm
          exact Or.inl hm
      · rw [addMember_conns] at hc
        exact Or.inr hc
    · rcases ih _ _ _ _ h with hm | hc
      · exact Or.inl hm
      · exact Or.inr hc

/-! ### Facts about the connect path -/

@[simp]
theorem joinTunnel_conns (s : ServerState) (a b : String) :
    (joinTunnel s a b).active_connections = s.active_connections := by
  simp only [joinTunnel]
  split_ifs <;> simp only [addMember_conns, ensureTunnel_conns]

@[simp]
theorem joinTunnel_waiting (s : ServerState) (a b : String) :
    (joinTunnel s a b).waiting_for = s.waiting_for := by
  simp only [joinTunnel]
  split_ifs <;> simp only [addMember_waiting, ensureTunnel_waiting]

@[simp]
theorem joinTunnel_online (s : ServerState) (a b : String) :
    (joinTunnel s a b).online_users = s.online_users := by
  simp only [joinTunnel]
  split_ifs <;> simp only [addMember_online, ensureTunnel_online]

@[simp]
theorem enqueueIfOffline_conns (s : ServerState) (a b : String) :
    (enqueueIfOffline s a b).1.active_connections = s.active_connections := by
  unfold enqueueIfOffline
  split_ifs <;> rfl

@[simp]
theorem enqueueIfOffline_tunnels (s : ServerState) (a b : String) :
    (enqueueIfOffline s a b).1.tunnel_users = s.tunnel_users := by
  unfold enqueueIfOffline
  split_ifs <;> rfl

@[simp]
theorem enqueueIfOffline_online (s : ServerState) (a b : String) :
    (enqueueIfOffline s a b).1.online_users = s.online_users := by
  unfold enqueueIfOffline
  split_ifs <;> rfl

theorem membersOf_enqueueIfOffline (s : ServerState) (a b : String) (k : Key) :
    membersOf (enqueueIfOffline s a b).1 k = membersOf s k := by
  rw [membersOf, membersOf, enqueueIfOffline_tunnels]

theorem connectAccepted_result (fo : Oracle) (s : ServerState) (a b : String) :
    (connectAccepted fo s a b).2.2 = ConnectResult.accepted ∨
      (connectAccepted fo s a b).2.2 = ConnectResult.errored := by
  simp only [connectAccepted]
  split_ifs <;> first | exact Or.inl rfl | exact Or.inr rfl

/-! ### Claim theorems -/

/-- C2: every connect request taking a rejection path (self-pairing,
duplicate-identity, recipient-busy) sends exactly one notice on the
rejecting session's own channel, closes that channel, and leaves all shared
state (registry, tunnels, waiting list, presence) unmutated. -/
theorem c2_rejection_paths (fo : Oracle) (s : ServerState) (a b : String)
    (h : (websocket_endpoint fo s a b).2.2 = ConnectResult.rejectedSelf ∨
         (websocket_endpoint fo s a b).2.2 = ConnectResult.rejectedDuplicate ∨
         (websocket_endpoint fo s a b).2.2 = ConnectResult.rejectedBusy) :
    (websocket_endpoint fo s a b).1 = s ∧
      ∃ m, (websocket_endpoint fo s a b).2.1 =
        [Event.sent Chan.self m, Event.closed Chan.self] := by
  simp only [websocket_endpoint] at h ⊢
  split_ifs at h ⊢
  · exact ⟨rfl, MSG_SELF, rfl⟩
  · exact ⟨rfl, MSG_DUP, rfl⟩
  · exact ⟨rfl, MSG_BUSY, rfl⟩
  · rcases connectAccepted_result fo s a b with hr | hr <;>
      rcases h with h | h | h <;> rw [hr] at h <;> exact absurd h (by decide)

/-- C2 witness: the self-pairing rejection at a concrete input. -/
theorem c2_rejection_paths_witness :
    (websocket_endpoint fo0 initialState "x" "x").1 = initialState ∧
      ∃ m, (websocket_endpoint fo0 initialState "x" "x").2.1 =
        [Event.sent Chan.self m, Event.closed Chan.self] :=
  c2_rejection_paths fo0 initialState "x" "x" (Or.inl (by decide))

/-- C9: the claim says process shutdown invokes a one-shot clear-all on the
Presence Store.  src/server/main.py registers no shutdown action at all, so
the claimed DEL of online_users never happens — the code contradicts its own
tests (tests/test_main.py expects a clean_online_users lifespan that calls
redis delete("online_users") exactly once at shutdown). -/
theorem c9_no_shutdown_clear :
    Event.delKey "online_users" ∉ main_shutdown_events ∧
      main_shutdown_events ≠ spec_shutdown_clear := by
  decide

/-- C6 counterexample: in the state with tunnel {A, B} whose member set is
{A, B} with both members registered, the cascade for A deletes the tunnel
entry although the member set after A's removal is {B}, which is non-empty —
refuting "the tunnel entry is deleted if and only if the member set is then
empty". -/
theorem c6_counterexample :
    removeAll (membersOf (⟨["A", "B"], [("A", "B")], [],
        [(("A", "B"), ["A", "B"])], ["A", "B"]⟩ : ServerState) ("A", "B")) "A" ≠ [] ∧
    alookup (handle_user_disconnect fo0
        (⟨["A", "B"], [("A", "B")], [], [(("A", "B"), ["A", "B"])], ["A", "B"]⟩ : ServerState)
        "A" ("A", "B")).1.tunnel_users ("A", "B") = none := by
  constructor
  · decide
  · decide

/-- C6 amended: whenever the cascade runs to completion, the tunnel entry
for the given key is absent afterwards — the deletion is unconditional
(every remaining member is unregistered in the same pass), not conditional
on the member set having become empty. -/
theorem c6_tunnel_always_deleted (fo : Oracle) (s : ServerState) (du : String) (tid : Key)
    (h : (handle_user_disconnect fo s du tid).2.2 = true) :
    alookup (handle_user_disconnect fo s du tid).1.tunnel_users tid = none := by
  simp only [handle_user_disconnect] at h ⊢
  split_ifs at h ⊢ with h1 h2 h3
  all_goals rw [purgeWaiting_tunnels]
  all_goals try exact alookup_eraseKey_self _ tid
  rwa [Option.not_isSome_iff_eq_none] at h2

/-- C6 amended witness: the cascade at a concrete input with a non-empty
remaining member set. -/
theorem c6_tunnel_always_deleted_witness :
    alookup (handle_user_disconnect fo0
        (⟨["A", "B"], [("A", "B")], [], [(("A", "B"), ["A", "B"])], ["A", "B"]⟩ : ServerState)
        "A" ("A", "B")).1.tunnel_users ("A", "B") = none :=
  c6_tunnel_always_deleted fo0 _ "A" ("A", "B") (by decide)

/-- The waiting list written back by (purgeWaiting s du). -/
theorem purgeWaiting_waiting (s : ServerState) (du : String) :
    (purgeWaiting s du).waiting_for =
      (eraseKey s.waiting_for du).map (fun p => (p.1, p.2.erase du)) := rfl

/-- When no srem fails, the cascade completes and its final waiting list is
the purge of the initial one: the disconnecting key's queue dropped, and the
first occurrence of the ID erased from every remaining queue. -/
theorem cascade_waiting_char (fo : Oracle) (s : ServerState) (du : String) (tid : Key)
    (hsrem : ∀ u, fo.sremFails u = false) :
    (handle_user_disconnect fo s du tid).1.waiting_for =
      (eraseKey s.waiting_for du).map (fun p => (p.1, p.2.erase du)) := by
  simp only [handle_user_disconnect]
  split_ifs with h1 h2 h3
  all_goals try (rw [hsrem du] at h1; exact Bool.noConfusion h1)
  all_goals try (exact absurd (notifyLoop_ok fo hsrem _ _ _) h3)
  all_goals simp only [purgeWaiting_waiting, notifyLoop_waiting, setMembers]

/-- The oracle whose only failure is the presence removal of "a". -/
def foSremA : Oracle :=
  ⟨fun _ => false, fun _ => false, fun u => u == "a", fun _ => false⟩

/-- A two-member tunnel state with "a" still listed on a waiting queue. -/
def c3state : ServerState :=
  ⟨["a", "b"], [("a", "b")], [("x", ["a"])], [(("a", "b"), ["a", "b"])], ["a", "b"]⟩

/-- C3 counterexample: when the presence-removal call for the disconnecting
user fails, the cascade does NOT continue — it aborts with only the srem
attempt performed: the peer is never notified, the tunnel entry survives,
and the waiting list is not purged.  This refutes "the remaining cascade
steps still complete". -/
theorem c3_counterexample :
    (handle_user_disconnect foSremA c3state "a" ("a", "b")).2.2 = false ∧
    (handle_user_disconnect foSremA c3state "a" ("a", "b")).2.1 = [Event.srem "a"] ∧
    (handle_user_disconnect foSremA c3state "a" ("a", "b")).1.tunnel_users =
      c3state.tunnel_users ∧
    (handle_user_disconnect foSremA c3state "a" ("a", "b")).1.waiting_for =
      c3state.waiting_for := by
  refine ⟨?_, ?_, ?_, ?_⟩ <;> decide

/-- C3 corrected: a presence-removal failure for the disconnecting user is
not swallowed: the cascade unregisters the user, attempts the srem, and the
exception propagates — peer notification, tunnel-entry removal and
waiting-list purge do not run, every other table being left as it was. -/
theorem c3_presence_failure_aborts (fo : Oracle) (s : ServerState) (du : String) (tid : Key)
    (h : fo.sremFails du = true) :
    handle_user_disconnect fo s du tid =
      ({ s with active_connections := removeAll s.active_connections du },
        [Event.srem du], false) := by
  simp [handle_user_disconnect, h]

/-- C3 corrected witness at the concrete failing input. -/
theorem c3_presence_failure_aborts_witness :
    handle_user_disconnect foSremA c3state "a" ("a", "b") =
      ({ c3state with active_connections := removeAll c3state.active_connections "a" },
        [Event.srem "a"], false) :=
  c3_presence_failure_aborts foSremA c3state "a" ("a", "b") (by decide)

/-- A state whose only content is a waiting queue holding "a" twice. -/
def c8state : ServerState := ⟨[], [], [("r", ["a", "a"])], [], []⟩

/-- C8 counterexample: when an ID occurs twice in some waiting queue, the
cascade's list.remove drops only the first occurrence, so the ID still
appears in a queue afterwards — refuting "A appears as a sender in no
Waiting List queue (even if it occurred more than once in some queue)". -/
theorem c8_counterexample :
    (handle_user_disconnect fo0 c8state "a" ("a", "b")).1.waiting_for = [("r", ["a"])] ∧
    "a" ∈ (alookup (handle_user_disconnect fo0 c8state "a" ("a", "b")).1.waiting_for
      "r").getD [] := by
  refine ⟨?_, ?_⟩ <;> decide

/-- C8 amended: provided the cascade completes and the ID occurred at most
once per queue, after the cascade the ID keys no waiting queue and appears
in none; with duplicates only the first occurrence of each queue is
removed. -/
theorem c8_waiting_purged (fo : Oracle) (s : ServerState) (du : String) (tid : Key)
    (hsrem : ∀ u, fo.sremFails u = false)
    (hcnt : ∀ p ∈ s.waiting_for, p.2.count du ≤ 1) :
    ∀ p ∈ (handle_user_disconnect fo s du tid).1.waiting_for, p.1 ≠ du ∧ du ∉ p.2 := by
  rw [cascade_waiting_char fo s du tid hsrem]
  intro p hp
  rw [List.mem_map] at hp
  obtain ⟨q, hq, rfl⟩ := hp
  rw [eraseKey, List.mem_filter] at hq
  obtain ⟨hqs, hqd⟩ := hq
  refine ⟨by simpa using hqd, ?_⟩
  intro hmem
  have h1 : 0 < (q.2.erase du).count du := List.count_pos_iff.mpr hmem
  rw [List.count_erase_self] at h1
  have h2 := hcnt q hqs
  omega

/-- C8 amended witness: the surviving queue entry no longer contains the
disconnected ID and is not keyed by it. -/
theorem c8_waiting_purged_witness :
    ("r", ["b"]) ∈ (handle_user_disconnect fo0
        (⟨[], [], [("r", ["a", "b"]), ("a", ["c"])], [], []⟩ : ServerState)
        "a" ("a", "x")).1.waiting_for ∧
    (("r", ["b"]).1 ≠ "a" ∧ "a" ∉ ("r", ["b"]).2) :=
  ⟨by decide,
   c8_waiting_purged fo0 (⟨[], [], [("r", ["a", "b"]), ("a", ["c"])], [], []⟩ : ServerState)
     "a" ("a", "x") (fun _ => rfl) (by decide) ("r", ["b"]) (by decide)⟩

/-- C10: running the cascade for an ID already absent from the registry,
whose tunnel key is absent from the tunnel table, and which occurs nowhere
in the waiting list (neither as a queue key nor inside a queue) changes no
in-memory table; the only action is the single idempotent presence-removal
attempt — hence a second firing of the cascade for the same session is a
no-op on the in-memory tables. -/
theorem c10_cascade_noop (fo : Oracle) (s : ServerState) (du : String) (tid : Key)
    (hc : du ∉ s.active_connections)
    (ht : alookup s.tunnel_users tid = none)
    (hw : ∀ p ∈ s.waiting_for, p.1 ≠ du ∧ du ∉ p.2) :
    (handle_user_disconnect fo s du tid).1.active_connections = s.active_connections ∧
    (handle_user_disconnect fo s du tid).1.tunnel_users = s.tunnel_users ∧
    (handle_user_disconnect fo s du tid).1.active_tunnels = s.active_tunnels ∧
    (handle_user_disconnect fo s du tid).1.waiting_for = s.waiting_for ∧
    (handle_user_disconnect fo s du tid).2.1 = [Event.srem du] := by
  have hrc : removeAll s.active_connections du = s.active_connections := removeAll_eq_self hc
  have hpw : ∀ (x : ServerState), x.waiting_for = s.waiting_for →
      (purgeWaiting x du).waiting_for = s.waiting_for := by
    intro x hx
    rw [purgeWaiting_waiting, hx]
    have he : eraseKey s.waiting_for du = s.waiting_for := by
      rw [eraseKey, List.filter_eq_self]
      intro p hp
      simpa using (hw p hp).1
    rw [he]
    have hmap : ∀ p ∈ s.waiting_for, (p.1, p.2.erase du) = p := by
      intro p hp
      rw [List.erase_of_not_mem (hw p hp).2]
    calc s.waiting_for.map (fun p => (p.1, p.2.erase du))
        = s.waiting_for.map id := List.map_congr_left hmap
      _ = s.waiting_for := List.map_id _
  simp only [handle_user_disconnect]
  split_ifs with h1 h2
  all_goals try (rw [ht] at h2; exact Bool.noConfusion h2)
  · exact ⟨hrc, rfl, rfl, rfl, rfl⟩
  · exact ⟨hrc, rfl, rfl, hpw _ rfl, rfl⟩

/-- C10 witness at a concrete input. -/
theorem c10_cascade_noop_witness :
    (handle_user_disconnect fo0
        (⟨["b"], [("x", "y")], [("q", ["z"])], [(("x", "y"), ["x"])], ["b"]⟩ : ServerState)
        "a" ("a", "b")).1.active_connections = ["b"] ∧
    (handle_user_disconnect fo0
        (⟨["b"], [("x", "y")], [("q", ["z"])], [(("x", "y"), ["x"])], ["b"]⟩ : ServerState)
        "a" ("a", "b")).2.1 = [Event.srem "a"] := by
  have h := c10_cascade_noop fo0
    (⟨["b"], [("x", "y")], [("q", ["z"])], [(("x", "y"), ["x"])], ["b"]⟩ : ServerState)
    "a" ("a", "b") (by decide) (by decide) (by decide)
  exact ⟨h.1, h.2.2.2.2⟩

/-- The registry written by an accepted connect: the sender inserted if
absent — no other step of the accepted path touches it. -/
theorem connectAccepted_conns (fo : Oracle) (s : ServerState) (a b : String) :
    (connectAccepted fo s a b).1.active_connections = insertNew s.active_connections a := by
  simp only [connectAccepted]
  split_ifs
  all_goals simp only [drainLoop_conns, enqueueIfOffline_conns, joinTunnel_conns]

/-- Any connect attempt keeps the registry duplicate-free. -/
theorem connect_conns_nodup (fo : Oracle) (s : ServerState) (a b : String)
    (h : s.active_connections.Nodup) :
    (websocket_endpoint fo s a b).1.active_connections.Nodup := by
  simp only [websocket_endpoint]
  split_ifs
  · exact h
  · exact h
  · exact h
  · rw [connectAccepted_conns]
    exact nodup_insertNew h a

/-- Any disconnect cascade keeps the registry duplicate-free. -/
theorem cascade_conns_nodup (fo : Oracle) (s : ServerState) (du : String) (tid : Key)
    (h : s.active_connections.Nodup) :
    (handle_user_disconnect fo s du tid).1.active_connections.Nodup := by
  simp only [handle_user_disconnect]
  split_ifs
  all_goals first
    | (show (removeAll s.active_connections du).Nodup
       exact nodup_removeAll h du)
    | (refine notifyLoop_conns_nodup fo _ _ _ ?_
       show (removeAll s.active_connections du).Nodup
       exact nodup_removeAll h du)

/-- C5: the Connection Registry never holds two live connections for the
same ParticipantID (it stays duplicate-free over every reachable state),
and a second connect attempt whose hashed sender the Presence Store reports
online is rejected with one notice and a close, with no change to any
shared state — the first session's registration, tunnel membership and
channel are untouched. -/
theorem c5_single_connection :
    (∀ s, Reachable s → s.active_connections.Nodup) ∧
    ∀ (fo : Oracle) (s : ServerState) (a b : String), a ∈ s.online_users → a ≠ b →
      (websocket_endpoint fo s a b).2.2 = ConnectResult.rejectedDuplicate ∧
      (websocket_endpoint fo s a b).1 = s ∧
      (websocket_endpoint fo s a b).2.1 =
        [Event.sent Chan.self MSG_DUP, Event.closed Chan.self] := by
  constructor
  · intro s hs
    induction hs with
    | init => exact List.nodup_nil
    | stepConnect fo a b hr ih => exact connect_conns_nodup fo _ a b ih
    | stepDisconnect fo a b hr ih => exact cascade_conns_nodup fo _ a (fkey a b) ih
  · intro fo s a b ha hab
    simp only [websocket_endpoint]
    rw [if_neg hab, if_pos ha]
    exact ⟨rfl, rfl, rfl⟩

/-- C5 witness: the empty state is reachable with a duplicate-free registry,
and the concrete duplicate connect is rejected without touching state. -/
theorem c5_single_connection_witness :
    initialState.active_connections.Nodup ∧
    ((websocket_endpoint fo0 (⟨["a"], [], [], [], ["a"]⟩ : ServerState) "a" "b").2.2 =
        ConnectResult.rejectedDuplicate ∧
      (websocket_endpoint fo0 (⟨["a"], [], [], [], ["a"]⟩ : ServerState) "a" "b").1 =
        (⟨["a"], [], [], [], ["a"]⟩ : ServerState)) :=
  ⟨c5_single_connection.1 initialState Reachable.init,
   (c5_single_connection.2 fo0 (⟨["a"], [], [], [], ["a"]⟩ : ServerState) "a" "b"
      (by decide) (by decide)).1,
   (c5_single_connection.2 fo0 (⟨["a"], [], [], [], ["a"]⟩ : ServerState) "a" "b"
      (by decide) (by decide)).2.1⟩

/-- C1: for an active tunnel {A, B} with both members registered, the
cascade for A delivers exactly one "peer disconnected" notice to B, closes
B's channel, unregisters B, removes B from the Presence Store, and deletes
the tunnel entry (first conjunct, the event trace is exactly
[srem A, notice to B, close B, srem B]); and whatever send/close failures
occur while notifying remaining members, as long as the presence calls
succeed the cascade completes, every remaining member ends unregistered,
and the tunnel entry is gone (second conjunct). -/
theorem c1_disconnect_cascade (s : ServerState) (A B : String) (tid : Key) (m : List String)
    (hm : alookup s.tunnel_users tid = some m)
    (hB : B ∈ s.active_connections) (hBA : B ≠ A) :
    (∀ fo : Oracle, (∀ u, fo.sremFails u = false) → fo.sendFails B = false →
      fo.closeFails B = false → removeAll m A = [B] →
      (handle_user_disconnect fo s A tid).2.1 =
        [Event.srem A, Event.sent (Chan.user B) MSG_PEER_GONE,
         Event.closed (Chan.user B), Event.srem B] ∧
      B ∉ (handle_user_disconnect fo s A tid).1.active_connections ∧
      B ∉ (handle_user_disconnect fo s A tid).1.online_users ∧
      alookup (handle_user_disconnect fo s A tid).1.tunnel_users tid = none ∧
      tid ∉ (handle_user_disconnect fo s A tid).1.active_tunnels) ∧
    (∀ fo : Oracle, (∀ u, fo.sremFails u = false) →
      (handle_user_disconnect fo s A tid).2.2 = true ∧
      (∀ u ∈ removeAll m A, u ∉ (handle_user_disconnect fo s A tid).1.active_connections) ∧
      alookup (handle_user_disconnect fo s A tid).1.tunnel_users tid = none) := by
  constructor
  · intro fo hsrem hsend hclose hrm
    have hBr : B ∈ removeAll s.active_connections A := mem_removeAll.mpr ⟨hB, hBA⟩
    simp only [handle_user_disconnect, hsrem, Bool.false_eq_true, if_false, hm,
      Option.isSome_some, if_true, Option.getD_some, hrm, notifyLoop, setMembers_conns,
      hBr, peerNotifyEvents, hsend, hclose, purgeWaiting_conns, purgeWaiting_online,
      purgeWaiting_tunnels, purgeWaiting_activeTunnels, List.cons_append,
      List.nil_append, List.singleton_append, List.append_nil, List.append_assoc]
    refine ⟨trivial, ?_, ?_, ?_, ?_⟩
    · exact not_mem_removeAll _ B
    · exact not_mem_removeAll _ B
    · exact alookup_eraseKey_self _ tid
    · exact not_mem_removeAll _ tid
  · intro fo hsrem
    have hok := notifyLoop_ok fo hsrem
    simp only [handle_user_disconnect, hsrem, Bool.false_eq_true, if_false, hm,
      Option.isSome_some, if_true, Option.getD_some, hok, purgeWaiting_conns,
      purgeWaiting_tunnels]
    refine ⟨trivial, ?_, ?_⟩
    · intro u hu
      rw [notifyLoop_mem_conns fo hsrem]
      rintro ⟨-, hnot⟩
      exact hnot hu
    · exact alookup_eraseKey_self _ tid

/-- C1 witness: the concrete {a, b} tunnel with the all-successful oracle. -/
theorem c1_disconnect_cascade_witness :
    (handle_user_disconnect fo0
        (⟨["a", "b"], [("a", "b")], [], [(("a", "b"), ["a", "b"])], ["a", "b"]⟩ : ServerState)
        "a" ("a", "b")).2.1 =
      [Event.srem "a", Event.sent (Chan.user "b") MSG_PEER_GONE,
       Event.closed (Chan.user "b"), Event.srem "b"] ∧
    "b" ∉ (handle_user_disconnect fo0
        (⟨["a", "b"], [("a", "b")], [], [(("a", "b"), ["a", "b"])], ["a", "b"]⟩ : ServerState)
        "a" ("a", "b")).1.active_connections ∧
    "b" ∉ (handle_user_disconnect fo0
        (⟨["a", "b"], [("a", "b")], [], [(("a", "b"), ["a", "b"])], ["a", "b"]⟩ : ServerState)
        "a" ("a", "b")).1.online_users ∧
    alookup (handle_user_disconnect fo0
        (⟨["a", "b"], [("a", "b")], [], [(("a", "b"), ["a", "b"])], ["a", "b"]⟩ : ServerState)
        "a" ("a", "b")).1.tunnel_users ("a", "b") = none ∧
    ("a", "b") ∉ (handle_user_disconnect fo0
        (⟨["a", "b"], [("a", "b")], [], [(("a", "b"), ["a", "b"])], ["a", "b"]⟩ : ServerState)
        "a" ("a", "b")).1.active_tunnels :=
  (c1_disconnect_cascade
      (⟨["a", "b"], [("a", "b")], [], [(("a", "b"), ["a", "b"])], ["a", "b"]⟩ : ServerState)
      "a" "b" ("a", "b") ["a", "b"] (by decide) (by decide) (by decide)).1
    fo0 (fun _ => rfl) rfl rfl (by decide)

theorem connNotices_append (l1 l2 : List Event) :
    connNotices (l1 ++ l2) = connNotices l1 ++ connNotices l2 := by
  simp [connNotices, List.filterMap_append]

theorem connNotices_map_self (l : List String) :
    connNotices (l.map (fun u => Event.sent (Chan.user u) MSG_RECIPIENT_CONNECTED)) = l := by
  induction l with
  | nil => rfl
  | cons u rest ih =>
    simp only [connNotices] at ih
    simp [connNotices, List.filterMap_cons, ih]

theorem connNotices_sadd (x : String) (l : List Event) :
    connNotices (Event.sadd x :: l) = connNotices l := by
  simp [connNotices, List.filterMap_cons]

theorem connNotices_self_sent (m : String) (l : List Event) :
    connNotices (Event.sent Chan.self m :: l) = connNotices l := by
  simp [connNotices, List.filterMap_cons]

/-- C7: when a user connects while a non-empty waiting queue q exists under
its own ID — toward any target that does not make the connect rejected
(distinct from itself, sender not already online, target not exclusively
paired) — the connect is accepted, the queue is deleted, and the "recipient
connected" notices delivered are exactly the still-connected members of q in
enqueue order, each such sender receiving exactly one notice.  The target
may be offline or a locally connected user such as one of the waiting
senders themselves. -/
theorem c7_waiting_notices (fo : Oracle) (s : ServerState) (r t : String) (q : List String)
    (hrt : r ≠ t)
    (hon : r ∉ s.online_users)
    (hbusy : ¬(t ∈ s.active_connections ∧
      ∃ p ∈ s.tunnel_users, t ∈ p.2 ∧ 1 < p.2.length))
    (hq : alookup s.waiting_for r = some q)
    (hnd : q.Nodup)
    (hsend : ∀ u ∈ q, fo.sendFails u = false)
    (hsadd : fo.saddFails r = false) :
    (websocket_endpoint fo s r t).2.2 = ConnectResult.accepted ∧
    alookup (websocket_endpoint fo s r t).1.waiting_for r = none ∧
    connNotices (websocket_endpoint fo s r t).2.1 =
      q.filter (fun u => decide (u ∈ insertNew s.active_connections r)) ∧
    (∀ u ∈ q, u ∈ insertNew s.active_connections r →
      (connNotices (websocket_endpoint fo s r t).2.1).count u = 1) := by
  have main : (websocket_endpoint fo s r t).2.2 = ConnectResult.accepted ∧
      alookup (websocket_endpoint fo s r t).1.waiting_for r = none ∧
      connNotices (websocket_endpoint fo s r t).2.1 =
        q.filter (fun u => decide (u ∈ insertNew s.active_connections r)) := by
    by_cases htc : t ∈ s.active_connections
    · -- the target is locally connected: no enqueue, no offline notice
      have ht4 : t ∈ insertNew s.active_connections r := mem_insertNew.mpr (Or.inl htc)
      simp only [websocket_endpoint, connectAccepted, hrt, hon, hbusy, if_false,
        hsadd, Bool.false_eq_true, enqueueIfOffline, joinTunnel_conns, ht4,
        joinTunnel_waiting, hq, Option.isSome_some, if_true, Option.getD_some]
      rw [drainLoop_ok fo (fkey r t) q _ _ hsend]
      rw [drainLoop_events fo (fkey r t) q _ _ hsend]
      simp only [joinTunnel_conns, if_true, List.nil_append]
      refine ⟨trivial, ?_, ?_⟩
      · exact alookup_eraseKey_self _ r
      · rw [connNotices_sadd, connNotices_map_self]
    · -- the target is offline: enqueue on its queue and send the offline notice
      have ht4 : t ∉ insertNew s.active_connections r := by
        rw [mem_insertNew]
        rintro (h | h)
        · exact htc h
        · exact hrt h.symm
      have hlook : alookup (appendWaiting s.waiting_for t r) r = some q := by
        rw [alookup_appendWaiting_ne s.waiting_for hrt]
        exact hq
      simp only [websocket_endpoint, connectAccepted, hrt, hon, hbusy, if_false,
        hsadd, Bool.false_eq_true, enqueueIfOffline, joinTunnel_conns, ht4,
        joinTunnel_waiting, hlook, Option.isSome_some, if_true, Option.getD_some]
      rw [drainLoop_ok fo (fkey r t) q _ _ hsend]
      rw [drainLoop_events fo (fkey r t) q _ _ hsend]
      simp only [joinTunnel_conns, if_true, List.nil_append]
      refine ⟨trivial, ?_, ?_⟩
      · exact alookup_eraseKey_self _ r
      · rw [List.singleton_append, connNotices_sadd, connNotices_self_sent,
          connNotices_map_self]
  refine ⟨main.1, main.2.1, main.2.2, ?_⟩
  intro u hu huc
  rw [main.2.2]
  have hmemf : u ∈ q.filter (fun v => decide (v ∈ insertNew s.active_connections r)) := by
    rw [List.mem_filter]
    exact ⟨hu, by simpa using huc⟩
  have hndf : (q.filter (fun v => decide (v ∈ insertNew s.active_connections r))).Nodup :=
    hnd.filter _
  have h1 : 0 < (q.filter (fun v => decide (v ∈ insertNew s.active_connections r))).count u :=
    List.count_pos_iff.mpr hmemf
  have h2 : (q.filter (fun v => decide (v ∈ insertNew s.active_connections r))).count u ≤ 1 :=
    List.nodup_iff_count_le_one.mp hndf u
  omega

/-- C7 witness — the spec's canonical scenario: senders s1 then s2 queued
for r, each holding a half-open tunnel with r, and r then connects back
toward the locally connected s1 (not busy: s1's tunnel has one member).
Both waiting senders get exactly one notice, in enqueue order. -/
theorem c7_waiting_notices_witness :
    (websocket_endpoint fo0
        (⟨["s1", "s2"], [("r", "s1"), ("r", "s2")], [("r", ["s1", "s2"])],
          [(("r", "s1"), ["s1"]), (("r", "s2"), ["s2"])], ["s1", "s2"]⟩ : ServerState)
        "r" "s1").2.2 = ConnectResult.accepted ∧
    alookup (websocket_endpoint fo0
        (⟨["s1", "s2"], [("r", "s1"), ("r", "s2")], [("r", ["s1", "s2"])],
          [(("r", "s1"), ["s1"]), (("r", "s2"), ["s2"])], ["s1", "s2"]⟩ : ServerState)
        "r" "s1").1.waiting_for "r" = none ∧
    connNotices (websocket_endpoint fo0
        (⟨["s1", "s2"], [("r", "s1"), ("r", "s2")], [("r", ["s1", "s2"])],
          [(("r", "s1"), ["s1"]), (("r", "s2"), ["s2"])], ["s1", "s2"]⟩ : ServerState)
        "r" "s1").2.1 = ["s1", "s2"] := by
  have h := c7_waiting_notices fo0
    (⟨["s1", "s2"], [("r", "s1"), ("r", "s2")], [("r", ["s1", "s2"])],
      [(("r", "s1"), ["s1"]), (("r", "s2"), ["s2"])], ["s1", "s2"]⟩ : ServerState)
    "r" "s1" ["s1", "s2"] (by decide) (by decide) (by decide) (by decide) (by decide)
    (fun u _ => rfl) rfl
  refine ⟨h.1, h.2.1, ?_⟩
  rw [h.2.2.1]
  decide

theorem membersOf_addMember (s : ServerState) (tid k : Key) (x u : String)
    (h : u ∈ membersOf (addMember s tid x) k) : u ∈ membersOf s k ∨ u = x := by
  by_cases hk : k = tid
  · subst hk
    rw [membersOf, addMember] at h
    simp only at h
    rw [alookup_updateVal_self] at h
    cases hl : alookup s.tunnel_users k with
    | none =>
      rw [hl] at h
      have hnil : u ∈ ([] : List String) := h
      exact absurd hnil (List.not_mem_nil u)
    | some ms =>
      rw [hl] at h
      have h' : u ∈ insertNew ms x := h
      rw [mem_insertNew] at h'
      rcases h' with h' | rfl
      · rw [membersOf, hl]; exact Or.inl h'
      · exact Or.inr rfl
  · rw [membersOf, addMember] at h
    simp only at h
    rw [alookup_updateVal_ne _ _ hk] at h
    exact Or.inl h

theorem membersOf_ensureTunnel (s : ServerState) (tid k : Key) (u : String)
    (h : u ∈ membersOf (ensureTunnel s tid) k) : u ∈ membersOf s k := by
  unfold ensureTunnel at h
  split_ifs at h with hx
  · exact h
  · rw [membersOf] at h ⊢
    dsimp only at h
    cases hl : alookup s.tunnel_users k with
    | some ms =>
      rw [alookup_append_some _ hl] at h
      exact h
    | none =>
      rw [alookup_append_none _ hl, alookup_cons] at h
      by_cases hk : tid = k
      · rw [if_pos hk] at h
        have hnil : u ∈ ([] : List String) := h
        exact absurd hnil (List.not_mem_nil u)
      · rw [if_neg hk] at h
        have hnil : u ∈ ([] : List String) := h
        exact absurd hnil (List.not_mem_nil u)

/-- The disconnect cascade never adds a tunnel member: the member set of any
key in the resulting state is contained in its initial member set. -/
theorem cascade_members_sub (fo : Oracle) (s : ServerState) (du : String) (tid : Key)
    (k : Key) (u : String)
    (h : u ∈ membersOf (handle_user_disconnect fo s du tid).1 k) :
    u ∈ membersOf s k := by
  simp only [handle_user_disconnect] at h
  split_ifs at h with h1 h2 h3
  all_goals try exact h
  all_goals by_cases hk : k = tid
  · -- completed branch, k = tid: the entry was erased
    subst hk
    rw [membersOf, purgeWaiting_tunnels] at h
    dsimp only at h
    rw [alookup_eraseKey_self] at h
    have hnil : u ∈ ([] : List String) := h
    exact absurd hnil (List.not_mem_nil u)
  · -- completed branch, k ≠ tid: untouched entry
    rw [membersOf, purgeWaiting_tunnels] at h
    dsimp only at h
    rw [alookup_eraseKey_ne _ hk, notifyLoop_tunnels] at h
    simp only [setMembers] at h
    rw [alookup_updateVal_ne _ _ hk] at h
    exact h
  · -- aborted mid-loop, k = tid: member set shrunk to a removeAll
    subst hk
    rw [membersOf, notifyLoop_tunnels] at h
    simp only [setMembers] at h
    rw [alookup_updateVal_self] at h
    obtain ⟨m, hm⟩ := Option.isSome_iff_exists.mp h2
    rw [hm] at h
    have h' : u ∈ removeAll m du := h
    rw [membersOf, hm]
    exact (mem_removeAll.mp h').1
  · -- aborted mid-loop, k ≠ tid
    rw [membersOf, notifyLoop_tunnels] at h
    simp only [setMembers] at h
    rw [alookup_updateVal_ne _ _ hk] at h
    exact h

/-- membersOf only reads the tunnel table of an explicitly built state. -/
theorem membersOf_mk (c : List String) (t : List Key) (w : List (String × List String))
    (tu : List (Key × List String)) (o : List String) (k : Key) :
    membersOf ⟨c, t, w, tu, o⟩ k = (alookup tu k).getD [] := rfl

/-- Adding the two parties to the tunnel only ever adds the sender, or the
recipient when the recipient is registered. -/
theorem joinTunnel_members (s : ServerState) (a b : String) (k : Key) (u : String)
    (h : u ∈ membersOf (joinTunnel s a b) k) :
    u ∈ membersOf s k ∨ u = a ∨ (u = b ∧ b ∈ s.active_connections) := by
  simp only [joinTunnel] at h
  split_ifs at h with hb
  · rcases membersOf_addMember _ _ _ _ _ h with h' | rfl
    · rcases membersOf_addMember _ _ _ _ _ h' with h'' | rfl
      · have hh := membersOf_ensureTunnel _ _ _ _ h''
        exact Or.inl hh
      · exact Or.inr (Or.inl rfl)
    · refine Or.inr (Or.inr ⟨rfl, ?_⟩)
      rw [addMember_conns, ensureTunnel_conns] at hb
      exact hb
  · rcases membersOf_addMember _ _ _ _ _ h with h' | rfl
    · have hh := membersOf_ensureTunnel _ _ _ _ h'
      exact Or.inl hh
    · exact Or.inr (Or.inl rfl)

/-- Every ID that an accepted connect adds to some member set is either an
initial member of that tunnel or is registered in the resulting state
(whose registry is insertNew of the sender). -/
theorem connectAccepted_members (fo : Oracle) (s : ServerState) (a b : String) (k : Key)
    (u : String) (h : u ∈ membersOf (connectAccepted fo s a b).1 k) :
    u ∈ membersOf s k ∨ u ∈ insertNew s.active_connections a := by
  simp only [connectAccepted] at h
  split_ifs at h with h1 h2 h3
  all_goals try exact Or.inl h
  all_goals try
    (rw [membersOf_enqueueIfOffline] at h
     rcases joinTunnel_members _ _ _ _ _ h with h' | rfl | ⟨rfl, hb⟩
     · exact Or.inl h'
     · exact Or.inr (mem_insertNew.mpr (Or.inr rfl))
     · exact Or.inr hb)
  all_goals
    (rcases drainLoop_members _ _ _ _ _ _ _ h with h' | h'
     · rw [membersOf_enqueueIfOffline] at h'
       rcases joinTunnel_members _ _ _ _ _ h' with h'' | rfl | ⟨rfl, hb⟩
       · exact Or.inl h''
       · exact Or.inr (mem_insertNew.mpr (Or.inr rfl))
       · exact Or.inr hb
     · rw [enqueueIfOffline_conns, joinTunnel_conns] at h'
       exact Or.inr h')

/-- C4 counterexample: from the empty state, let W connect toward S (S
offline), then S connect toward R.  Draining S's waiting queue adds W to the
tunnel keyed {S, R}, whose member set {S, W} is not a subset of the key pair
— the claimed invariant fails in a reachable state. -/
theorem c4_counterexample :
    Reachable (websocket_endpoint fo0
      (websocket_endpoint fo0 initialState "w" "s").1 "s" "r").1 ∧
    ¬ tunnelInvariant (websocket_endpoint fo0
      (websocket_endpoint fo0 initialState "w" "s").1 "s" "r").1 :=
  ⟨Reachable.stepConnect fo0 "s" "r" (Reachable.stepConnect fo0 "w" "s" Reachable.init),
   by decide⟩

/-- C4 amended: what the operations do guarantee is that every ID newly
added to some tunnel's member set by a connect is registered in the
post-state (members are registered at the time of their addition), and the
disconnect cascade never adds members; the claimed subset-of-key and
subset-of-registry invariants themselves fail (a drained third-party waiting
sender is added to the connecting session's tunnel, and such a member can
outlive its registration). -/
theorem c4_members_registered_when_added :
    (∀ (fo : Oracle) (s : ServerState) (a b : String) (k : Key) (u : String),
      u ∈ membersOf (websocket_endpoint fo s a b).1 k → u ∉ membersOf s k →
      u ∈ (websocket_endpoint fo s a b).1.active_connections) ∧
    (∀ (fo : Oracle) (s : ServerState) (du : String) (tid k : Key) (u : String),
      u ∈ membersOf (handle_user_disconnect fo s du tid).1 k → u ∈ membersOf s k) := by
  constructor
  · intro fo s a b k u h hnot
    simp only [websocket_endpoint] at h ⊢
    split_ifs at h ⊢
    · exact absurd h hnot
    · exact absurd h hnot
    · exact absurd h hnot
    · rcases connectAccepted_members fo s a b k u h with h' | h'
      · exact absurd h' hnot
      · rw [connectAccepted_conns]
        exact h'
  · intro fo s du tid k u h
    exact cascade_members_sub fo s du tid k u h

/-- C4 amended witness: the sender itself is a freshly added member and is
registered afterwards. -/
theorem c4_members_registered_when_added_witness :
    "a" ∈ (websocket_endpoint fo0 initialState "a" "b").1.active_connections :=
  c4_members_registered_when_added.1 fo0 initialState "a" "b" (fkey "a" "b") "a"
    (by decide) (by decide)
